import Mathlib

/-!
# Verification of the MemoryLane VS Code extension client

Shallow embedding of the TypeScript extension sources (`sidecar.ts`,
`memoryTree.ts`, `insightsTree.ts`, `extension.ts`, `knowledgeGraph.ts`,
`interactionTracker.ts`) of the memory-lane repository, together with
proofs and refutations of the specification claims about them.

Machine integers are modelled as `Nat` with explicit `% 2^32` where the
algorithms (MD5) overflow; JavaScript floating-point arithmetic on
token/cost counters and similarity ratios is modelled over `ℚ`.
-/

namespace MemoryLane

/-! ## MD5 (RFC 1321), used by `getWorkspaceSocketPath`

`crypto.createHash('md5').update(s).digest('hex')` in `sidecar.ts` hashes
the UTF-8 encoding of the string and renders the 16-byte digest as 32
lowercase hex characters.  The algorithm below is the standard MD5 over
byte lists, all words kept as `Nat` reduced mod `2^32`. -/

def w32 : Nat := 4294967296

def bnot32 (x : Nat) : Nat := 4294967295 - x % w32

def rotl32 (x n : Nat) : Nat := (((x % w32) <<< n) ||| ((x % w32) >>> (32 - n))) % w32

def md5F (b c d : Nat) : Nat := (b &&& c) ||| (bnot32 b &&& d)
def md5G (b c d : Nat) : Nat := (d &&& b) ||| (bnot32 d &&& c)
def md5H (b c d : Nat) : Nat := (b ^^^ c) ^^^ d
def md5I (b c d : Nat) : Nat := c ^^^ (b ||| bnot32 d)

/-- The 64 MD5 sine constants `floor(2^32·|sin(i+1)|)`. -/
def md5K : List Nat :=
  [0xd76aa478, 0xe8c7b756, 0x242070db, 0xc1bdceee, 0xf57c0faf, 0x4787c62a, 0xa8304613, 0xfd469501,
   0x698098d8, 0x8b44f7af, 0xffff5bb1, 0x895cd7be, 0x6b901122, 0xfd987193, 0xa679438e, 0x49b40821,
   0xf61e2562, 0xc040b340, 0x265e5a51, 0xe9b6c7aa, 0xd62f105d, 0x02441453, 0xd8a1e681, 0xe7d3fbc8,
   0x21e1cde6, 0xc33707d6, 0xf4d50d87, 0x455a14ed, 0xa9e3e905, 0xfcefa3f8, 0x676f02d9, 0x8d2a4c8a,
   0xfffa3942, 0x8771f681, 0x6d9d6122, 0xfde5380c, 0xa4beea44, 0x4bdecfa9, 0xf6bb4b60, 0xbebfbc70,
   0x289b7ec6, 0xeaa127fa, 0xd4ef3085, 0x04881d05, 0xd9d4d039, 0xe6db99e5, 0x1fa27cf8, 0xc4ac5665,
   0xf4292244, 0x432aff97, 0xab9423a7, 0xfc93a039, 0x655b59c3, 0x8f0ccc92, 0xffeff47d, 0x85845dd1,
   0x6fa87e4f, 0xfe2ce6e0, 0xa3014314, 0x4e0811a1, 0xf7537e82, 0xbd3af235, 0x2ad7d2bb, 0xeb86d391]

/-- The 64 per-round left-rotation amounts. -/
def md5S : List Nat :=
  [7, 12, 17, 22, 7, 12, 17, 22, 7, 12, 17, 22, 7, 12, 17, 22,
   5, 9, 14, 20, 5, 9, 14, 20, 5, 9, 14, 20, 5, 9, 14, 20,
   4, 11, 16, 23, 4, 11, 16, 23, 4, 11, 16, 23, 4, 11, 16, 23,
   6, 10, 15, 21, 6, 10, 15, 21, 6, 10, 15, 21, 6, 10, 15, 21]

structure MD5St where
  a : Nat
  b : Nat
  c : Nat
  d : Nat

def md5Init : MD5St := ⟨0x67452301, 0xefcdab89, 0x98badcfe, 0x10325476⟩

/-- One of the 64 MD5 rounds: `M` is the 16-word message schedule. -/
def md5Step (M : List Nat) (st : MD5St) (i : Nat) : MD5St :=
  let fg : Nat × Nat :=
    if i < 16 then (md5F st.b st.c st.d, i)
    else if i < 32 then (md5G st.b st.c st.d, (5 * i + 1) % 16)
    else if i < 48 then (md5H st.b st.c st.d, (3 * i + 5) % 16)
    else (md5I st.b st.c st.d, (7 * i) % 16)
  let tmp := (st.a + fg.1 + md5K.getD i 0 + M.getD fg.2 0) % w32
  ⟨st.d, (st.b + rotl32 tmp (md5S.getD i 0)) % w32, st.b, st.c⟩

/-- Process one 64-byte block (bytes in little-endian word order). -/
def md5Block (st : MD5St) (block : List Nat) : MD5St :=
  let M := (List.range 16).map fun j =>
    block.getD (4 * j) 0 + 256 * block.getD (4 * j + 1) 0 +
      65536 * block.getD (4 * j + 2) 0 + 16777216 * block.getD (4 * j + 3) 0
  match (List.range 64).foldl (md5Step M) st with
  | ⟨a, b, c, d⟩ =>
      ⟨(st.a + a) % w32, (st.b + b) % w32, (st.c + c) % w32, (st.d + d) % w32⟩

/-- `n` little-endian bytes of `x`. -/
def leBytes (n x : Nat) : List Nat := (List.range n).map fun i => (x >>> (8 * i)) % 256

/-- MD5 padding: a `0x80` byte, zeros to 56 mod 64, then the 64-bit
little-endian message bit length. -/
def md5Pad (msg : List Nat) : List Nat :=
  msg ++ 128 :: List.replicate ((120 - (msg.length + 1) % 64) % 64) 0 ++
    leBytes 8 ((8 * msg.length) % 2 ^ 64)

/-- Cut a byte list into 64-byte chunks (fuel-driven, fuel bounds the
number of chunks). -/
def chunksAux (fuel : Nat) (l : List Nat) : List (List Nat) :=
  match fuel with
  | 0 => []
  | f + 1 => if l.isEmpty then [] else l.take 64 :: chunksAux f (l.drop 64)

def chunks64 (l : List Nat) : List (List Nat) := chunksAux l.length l

/-- MD5 digest (16 bytes) of a byte list. -/
def md5Bytes (msg : List Nat) : List Nat :=
  match (chunks64 (md5Pad msg)).foldl md5Block md5Init with
  | ⟨a, b, c, d⟩ => leBytes 4 a ++ leBytes 4 b ++ leBytes 4 c ++ leBytes 4 d

def hexDigits : List Char := "0123456789abcdef".data

def hexChar (n : Nat) : Char := hexDigits.getD n '0'

def byteHex (b : Nat) : List Char := [hexChar (b / 16), hexChar (b % 16)]

/-- UTF-8 encoding of one Unicode code point. -/
def utf8Char (c : Nat) : List Nat :=
  if c < 128 then [c]
  else if c < 2048 then [192 ||| (c >>> 6), 128 ||| (c &&& 63)]
  else if c < 65536 then
    [224 ||| (c >>> 12), 128 ||| ((c >>> 6) &&& 63), 128 ||| (c &&& 63)]
  else
    [240 ||| (c >>> 18), 128 ||| ((c >>> 12) &&& 63),
     128 ||| ((c >>> 6) &&& 63), 128 ||| (c &&& 63)]

def utf8Encode (cs : List Char) : List Nat :=
  cs.foldr (fun c acc => utf8Char c.toNat ++ acc) []

/-- `crypto.createHash('md5').update(s).digest('hex')`. -/
def md5Hex (s : String) : String :=
  String.mk ((md5Bytes (utf8Encode s.data)).foldr (fun b acc => byteHex b ++ acc) [])

/-! ## `SidecarManager.getWorkspaceSocketPath` (sidecar.ts)

```ts
private getWorkspaceSocketPath(): string {
    if (!this.workspaceRoot) {
        const hash = crypto.createHash('md5').update(this.sidecarRoot).digest('hex').slice(0, 8);
        return `/tmp/memorylane-${hash}.sock`;
    }
    const hash = crypto.createHash('md5').update(this.workspaceRoot).digest('hex').slice(0, 8);
    return `/tmp/memorylane-${hash}.sock`;
}
```
An empty `workspaceRoot` string is falsy in JavaScript, hence the
`workspaceRoot = ""` test. -/
def getWorkspaceSocketPath (workspaceRoot sidecarRoot : String) : String :=
  if workspaceRoot = "" then
    "/tmp/memorylane-" ++ (md5Hex sidecarRoot).take 8 ++ ".sock"
  else
    "/tmp/memorylane-" ++ (md5Hex workspaceRoot).take 8 ++ ".sock"

/-! ## Category strings passed by the extension (memoryTree.ts, insightsTree.ts, extension.ts) -/

/-- Models `String.prototype.toLowerCase()` (exact on the ASCII labels the
extension lowercases). -/
def jsToLower (s : String) : String := String.mk (s.data.map Char.toLower)

/-- The four root items of the Memories tree
(`MemoryTreeProvider.getChildren`, memoryTree.ts). -/
def memoryTreeRootLabels : List String := ["Patterns", "Insights", "Learnings", "Context"]

/-- The category argument the tree passes to `getMemories`:
`element.label.toLowerCase()` (memoryTree.ts). -/
def memoryTreeCategoryArg (label : String) : String := jsToLower label

/-- `memorylane.showInsights` (extension.ts) calls `getMemories('insights')`. -/
def showInsightsCategoryArg : String := "insights"

/-- `InsightsTreeProvider.getChildren` (insightsTree.ts) calls
`getMemories('insights')`. -/
def insightsTreeCategoryArg : String := "insights"

/-- All category strings the extension passes as the `category` argument of a
`get_memories` request, from the Memories tree and both insights views. -/
def extensionCategoryArgs : List String :=
  memoryTreeRootLabels.map memoryTreeCategoryArg ++ [showInsightsCategoryArg, insightsTreeCategoryArg]

/-- Modelled from the spec: the fixed closed category set of the data model,
"one of a fixed closed set {pattern, insight, learning, context-note}". -/
def specCategorySet : List String := ["pattern", "insight", "learning", "context-note"]

/-! ## `KnowledgeGraphPanel._calculateSimilarity` (knowledgeGraph.ts)

```ts
const words1 = new Set(text1.toLowerCase().split(/\s+/));
const words2 = new Set(text2.toLowerCase().split(/\s+/));
const intersection = new Set([...words1].filter(x => words2.has(x)));
const union = new Set([...words1, ...words2]);
return intersection.size / union.size;
```
The float quotient is modelled over `ℚ` (the set sizes themselves are
small integers, exact in a JavaScript double). -/

/-- The JavaScript regular-expression class `\s`. -/
def isJsWs (c : Char) : Bool :=
  ([9, 10, 11, 12, 13, 32, 160, 5760, 8232, 8233, 8239, 8287, 12288, 65279].contains c.toNat)
    || (decide (8192 ≤ c.toNat) && decide (c.toNat ≤ 8202))

/-- Models `s.split(/\s+/)`: pieces between maximal whitespace runs.  As in
JavaScript, leading or trailing whitespace (and the empty string) contribute
empty pieces: `"".split` is `[""]`, `" x".split` is `["", "x"]`. -/
def jsSplitWs : List Char → List (List Char)
  | [] => [[]]
  | [c] => if isJsWs c then [[], []] else [[c]]
  | c :: d :: cs =>
    let r := jsSplitWs (d :: cs)
    if isJsWs c then
      if isJsWs d then r else [] :: r
    else
      match r with
      | [] => [[c]]
      | p :: ps => (c :: p) :: ps

/-- The spec's tokenization, stated independently of the code: the maximal
whitespace-free runs of the text ("words"), with no empty tokens. -/
def specWords : List Char → List (List Char)
  | [] => []
  | [c] => if isJsWs c then [] else [[c]]
  | c :: d :: cs =>
    let r := specWords (d :: cs)
    if isJsWs c then r
    else if isJsWs d then [c] :: r
    else
      match r with
      | [] => [[c]]
      | p :: ps => (c :: p) :: ps

/-- The word set `new Set(text.toLowerCase().split(/\s+/))`. -/
def wordSet (t : String) : Finset String :=
  ((jsSplitWs (jsToLower t).data).map fun l => String.mk l).toFinset

/-- `_calculateSimilarity`: intersection size over union size. -/
def calculateSimilarity (t1 t2 : String) : ℚ :=
  (((wordSet t1) ∩ (wordSet t2)).card : ℚ) / (((wordSet t1) ∪ (wordSet t2)).card : ℚ)

/-- The spec's word set: lowercase whitespace-separated words (no empty
token). -/
def specWordSet (t : String) : Finset String :=
  ((specWords (jsToLower t).data).map fun l => String.mk l).toFinset

/-- The spec's Jaccard similarity over `specWordSet`. -/
def specJaccard (t1 t2 : String) : ℚ :=
  (((specWordSet t1) ∩ (specWordSet t2)).card : ℚ) / (((specWordSet t1) ∪ (specWordSet t2)).card : ℚ)

/-! ## `InteractionTracker` (interactionTracker.ts)

JavaScript number arithmetic on the counters is modelled over `ℚ`
(`0.3` is read as the literal `3/10`). -/

structure InteractionMetrics where
  totalSaved : ℚ
  compressionRatio : ℚ
  tokensSaved : ℚ
  interactions : ℚ
  savingsPercent : ℚ

/-- The initial `metrics` object of `InteractionTracker`. -/
def initialMetrics : InteractionMetrics :=
  { totalSaved := 0, compressionRatio := 1, tokensSaved := 0, interactions := 0, savingsPercent := 0 }

/-- `InteractionTracker.trackInteraction`, as a pure state update on the
metrics record (the trailing `saveMetrics()` persistence step is modelled by
`saveMetrics` below). -/
def trackInteraction (m : InteractionMetrics) : InteractionMetrics :=
  let interactions := m.interactions + 1
  let baselineTokens : ℚ := 20000
  let compressedTokens : ℚ := 3000
  let compressionRatio := baselineTokens / compressedTokens
  let newCompressionRatio := (m.compressionRatio * (interactions - 1) + compressionRatio) / interactions
  let newTokensSaved := m.tokensSaved + (baselineTokens - compressedTokens)
  let inputCostPerMillion : ℚ := 3
  let outputCostPerMillion : ℚ := 15
  let baselineCost := baselineTokens / 1000000 * inputCostPerMillion
    + baselineTokens * (3 / 10) / 1000000 * outputCostPerMillion
  let actualCost := compressedTokens / 1000000 * inputCostPerMillion
    + compressedTokens * (3 / 10) / 1000000 * outputCostPerMillion
  let newTotalSaved := m.totalSaved + (baselineCost - actualCost)
  let newSavingsPercent := (baselineCost - actualCost) / baselineCost * 100
  { totalSaved := newTotalSaved, compressionRatio := newCompressionRatio,
    tokensSaved := newTokensSaved, interactions := interactions,
    savingsPercent := newSavingsPercent }

/-- The JSON object written to `.memorylane/metrics.json` by
`InteractionTracker.saveMetrics` (the `last_updated` wall-clock field is
outside the model). -/
structure SavedMetrics where
  costSavingsTotal : ℚ
  costSavingsWeek : ℚ
  costSavingsMonth : ℚ
  costSavingsPercent : ℚ
  compressionAvgRatio : ℚ
  compressionTotalSaved : ℚ
  interactions : ℚ

/-- `InteractionTracker.saveMetrics`: serialization of the in-memory metrics. -/
def saveMetrics (m : InteractionMetrics) : SavedMetrics :=
  { costSavingsTotal := m.totalSaved, costSavingsWeek := m.totalSaved,
    costSavingsMonth := m.totalSaved, costSavingsPercent := m.savingsPercent,
    compressionAvgRatio := m.compressionRatio, compressionTotalSaved := m.tokensSaved,
    interactions := m.interactions }

/-! ## The line protocol client (`SidecarManager.sendRequest` and callers) -/

/-- JSON values appearing in the client's requests (all request objects the
extension builds are flat: every argument value is a primitive). -/
inductive Json where
  | str : String → Json
  | num : ℚ → Json
deriving DecidableEq

/-- A request: an action name plus a flat argument mapping.  `undefined`
object fields are omitted by `JSON.stringify`, so an absent optional argument
simply does not appear in `args`. -/
structure Request where
  action : String
  args : List (String × Json)
deriving DecidableEq

def pingRequest : Request := { action := "ping", args := [] }

def getStatsRequest : Request := { action := "get_stats", args := [] }

def shutdownRequest : Request := { action := "shutdown", args := [] }

/-- `getMemories(category?)` sends `{action:'get_memories', category}`;
an `undefined` category is dropped from the JSON text. -/
def getMemoriesRequest (category : Option String) : Request :=
  { action := "get_memories",
    args := match category with
      | none => []
      | some c => [("category", Json.str c)] }

/-- The default of the `relevance` parameter of `addMemory` (`= 1.0`). -/
def addMemoryDefaultRelevance : ℚ := 1

/-- `addMemory(category, content, source, relevance = 1.0)` sends
`{action:'add_memory', category, content, source, relevance_score}`. -/
def addMemoryRequest (category content source : String)
    (relevance : ℚ := addMemoryDefaultRelevance) : Request :=
  { action := "add_memory",
    args := [("category", Json.str category), ("content", Json.str content),
             ("source", Json.str source), ("relevance_score", Json.num relevance)] }

/-- `exportMarkdown(category?)` sends `{action:'get_context', category}`;
no `query` and no `token_budget` argument is ever attached. -/
def exportMarkdownRequest (category : Option String) : Request :=
  { action := "get_context",
    args := match category with
      | none => []
      | some c => [("category", Json.str c)] }

/-- Decimal digits of `n` (fuel-driven; `natRepr` supplies enough fuel). -/
def natReprAux : Nat → Nat → List Char
  | 0, _ => []
  | fuel + 1, n => if n = 0 then [] else natReprAux fuel (n / 10) ++ [hexChar (n % 10)]

def natRepr (n : Nat) : List Char := if n = 0 then ['0'] else natReprAux n n

/-- Rendering of a JSON number.  JavaScript prints the shortest
round-tripping decimal of the double; this fixed-precision model can differ
in the digit string, but every rendering consists only of digits, an
optional minus sign and an optional decimal point — the alphabet is all the
line-protocol facts below rely on. -/
def jsonNumChars (q : ℚ) : List Char :=
  (if q < 0 then ['-'] else []) ++ natRepr (q.num.natAbs / q.den) ++
    (if q.den = 1 then [] else '.' :: natRepr (q.num.natAbs * 1000000 / q.den % 1000000))

/-- `JSON.stringify` escaping of one string character. -/
def escChar (c : Char) : List Char :=
  if c = '"' then ['\\', '"']
  else if c = '\\' then ['\\', '\\']
  else if c = '\n' then ['\\', 'n']
  else if c = '\r' then ['\\', 'r']
  else if c = '\t' then ['\\', 't']
  else if c = '\x08' then ['\\', 'b']
  else if c = '\x0c' then ['\\', 'f']
  else if c.toNat < 32 then ['\\', 'u', '0', '0', hexChar (c.toNat / 16), hexChar (c.toNat % 16)]
  else [c]

/-- `JSON.stringify` of a string: quoted, with escapes. -/
def encodeStr (s : String) : List Char :=
  '"' :: s.data.foldr (fun c acc => escChar c ++ acc) ['"']

def encodeVal : Json → List Char
  | .str s => encodeStr s
  | .num q => jsonNumChars q

/-- One `"key":value` member. -/
def jsonMember (k : String) (v : Json) : List Char := encodeStr k ++ ':' :: encodeVal v

/-- `JSON.stringify(request)`: a flat object whose first member is the
action, followed by the argument mapping. -/
def encodeRequest (r : Request) : List Char :=
  '{' :: (jsonMember "action" (Json.str r.action) ++
    ((r.args.map fun f => ',' :: jsonMember f.1 f.2).flatten ++ ['}']))

/-- The single write `client.write(JSON.stringify(request) + '\n')` performed
by `sendRequest` once the connection opens. -/
def wireData (r : Request) : String := String.mk (encodeRequest r) ++ "\n"

/-- `s.includes(c)` on a one-character needle. -/
def jsIncludes (s : String) (c : Char) : Bool := s.data.any (· == c)

/-- `String.prototype.trim()`. -/
def jsTrim (s : String) : String :=
  String.mk (((s.data.dropWhile (isJsWs ·)).reverse.dropWhile (isJsWs ·)).reverse)

/-- Socket events as seen by the `sendRequest` promise executor. -/
inductive SockEv where
  | data (chunk : String)
  | err (msg : String)

/-- How the promise was settled.  `response line` records that
`JSON.parse(line)` was applied to the accumulated, trimmed buffer and the
promise resolved with the parsed object (or rejected if parsing failed);
parsing itself is outside the model. -/
inductive Settle where
  | response (line : String)
  | sockError (msg : String)
  | timeout
deriving DecidableEq

structure ReqState where
  settled : Bool
  buf : String
  outcome : Option Settle
  settleOps : Nat
  destroyed : Bool

def initReqState : ReqState :=
  { settled := false, buf := "", outcome := none, settleOps := 0, destroyed := false }

/-- The `client.on('data', ...)` handler: accumulate, and once the buffer
contains a newline, settle (at most once, guarded by `settled`). -/
def onData (st : ReqState) (chunk : String) : ReqState :=
  if jsIncludes (st.buf ++ chunk) '\n' then
    if st.settled then { st with buf := st.buf ++ chunk }
    else { st with settled := true, buf := st.buf ++ chunk,
                   outcome := some (Settle.response (jsTrim (st.buf ++ chunk))),
                   settleOps := st.settleOps + 1 }
  else { st with buf := st.buf ++ chunk }

/-- The `client.on('error', ...)` handler. -/
def onErr (st : ReqState) (msg : String) : ReqState :=
  if st.settled then st
  else { st with settled := true, outcome := some (Settle.sockError msg),
                 settleOps := st.settleOps + 1 }

/-- The `setTimeout` handler: if nothing settled the promise, destroy the
connection and reject with the timeout error. -/
def onTimeout (st : ReqState) : ReqState :=
  if st.settled then st
  else { st with settled := true, destroyed := true,
                 outcome := some Settle.timeout, settleOps := st.settleOps + 1 }

def stepEv (st : ReqState) : SockEv → ReqState
  | .data c => onData st c
  | .err m => onErr st m

/-- Run the handlers over a socket-event trace. -/
def runEvents (evs : List SockEv) : ReqState := evs.foldl stepEv initReqState

/-- A trace on which no complete line and no error arrived ends with the
timeout firing. -/
def runWithTimeout (evs : List SockEv) : ReqState := onTimeout (runEvents evs)

/-- The default of the `timeoutMs` parameter of `sendRequest` (`= 10000`). -/
def sendRequestDefaultTimeoutMs : Nat := 10000

/-! ## Response interpretation by the callers of `sendRequest`

A parsed response object; absent fields are `none` (JavaScript
`undefined`). -/

structure Response where
  status : Option String
  error : Option String
  memory_stats : Option Json
  server_stats : Option Json
  memories : Option (List Json)
  memory_id : Option String
  context : Option String
  included_ids : Option (List String)
deriving DecidableEq

/-- `getStats`: on `status === 'success'` return the stats payload, else
`throw new Error(response.error)`. -/
def getStats (resp : Response) : Except (Option String) (Option Json × Option Json) :=
  if resp.status = some "success" then Except.ok (resp.memory_stats, resp.server_stats)
  else Except.error resp.error

/-- `getMemories`: on success return `response.memories`, else throw. -/
def getMemories (resp : Response) : Except (Option String) (Option (List Json)) :=
  if resp.status = some "success" then Except.ok resp.memories
  else Except.error resp.error

/-- `addMemory` response handling: on success return `response.memory_id`,
else throw. -/
def addMemoryHandle (resp : Response) : Except (Option String) (Option String) :=
  if resp.status = some "success" then Except.ok resp.memory_id
  else Except.error resp.error

/-- `exportMarkdown` response handling: on success return only
`response.context`, else throw.  No other response field reaches the
caller. -/
def exportMarkdown (resp : Response) : Except (Option String) (Option String) :=
  if resp.status = some "success" then Except.ok resp.context
  else Except.error resp.error

/-! ## `SidecarManager.start` (sidecar.ts)

The filesystem and process effects of `start()` are modelled as an
environment of the branch conditions the code tests, and the list of
actions it performs. -/

structure StartEnv where
  hasServerProcess : Bool
  socketExists : Bool
  pingSucceeds : Bool
  serverScriptExists : Bool
  dataDirExists : Bool
  memorylaneDirExists : Bool
  waitForServerSucceeds : Bool
deriving DecidableEq

inductive FsAction where
  | unlink (path : String)
  | mkdirMemorylane
  | spawnServer (socketPath : String)
deriving DecidableEq

inductive StartOutcome where
  | alreadyRunning
  | reusedExisting
  | started
  | failed (msg : String)
deriving DecidableEq

/-- `start()`: reuse a responsive existing server, reclaim a stale socket,
otherwise validate paths, spawn `server.py start --socket <socketPath>` and
wait for it. -/
def start (env : StartEnv) (socketPath : String) : StartOutcome × List FsAction :=
  if env.hasServerProcess then (StartOutcome.alreadyRunning, [])
  else if env.socketExists && env.pingSucceeds then (StartOutcome.reusedExisting, [])
  else
    let pre : List FsAction := if env.socketExists then [FsAction.unlink socketPath] else []
    if !env.serverScriptExists then (StartOutcome.failed "Server script not found", pre)
    else if !env.dataDirExists then (StartOutcome.failed "Data directory not found", pre)
    else
      let mk := if !env.memorylaneDirExists then pre ++ [FsAction.mkdirMemorylane] else pre
      let acts := mk ++ [FsAction.spawnServer socketPath]
      if env.waitForServerSucceeds then (StartOutcome.started, acts)
      else (StartOutcome.failed "Server failed to start within timeout", acts)

/-! ## Claim C1: socket address determinism and distinctness -/

set_option maxRecDepth 1000000 in
/-- C1, counterexample: the claim "for every pair of distinct workspace paths
the computed addresses are distinct" is false: only the first 8 hex
characters (32 bits) of the MD5 digest enter the address, and the two
distinct paths below share that prefix, so they are mapped to the same
socket address. -/
theorem C1_socket_collision :
    ("/home/user/project9524" : String) ≠ "/home/user/project71820" ∧
      getWorkspaceSocketPath "/home/user/project9524" ""
        = getWorkspaceSocketPath "/home/user/project71820" "" := by
  exact ⟨by decide, by decide⟩

/-- C1 (amended): the socket address is a deterministic function of the
workspace path alone — for a non-empty workspace path it does not depend on
any other state, and repeated computations agree — but distinct workspace
paths may collide, since only the first 8 hex characters of the MD5 hash are
used (see the counterexample). -/
theorem C1_socket_path_deterministic :
    ∀ (w s₁ s₂ : String), w ≠ "" →
      getWorkspaceSocketPath w s₁ = getWorkspaceSocketPath w s₂ ∧
        getWorkspaceSocketPath w s₁ = "/tmp/memorylane-" ++ (md5Hex w).take 8 ++ ".sock" := by
  intro w s₁ s₂ hw
  unfold getWorkspaceSocketPath
  rw [if_neg hw, if_neg hw]
  exact ⟨rfl, rfl⟩

/-- C1, witness for the amended theorem at concrete inputs. -/
theorem C1_socket_path_deterministic_witness :
    getWorkspaceSocketPath "a" "b" = getWorkspaceSocketPath "a" "c" :=
  (C1_socket_path_deterministic "a" "b" "c" (by decide)).1

/-! ## Claim C2: start() reuses a live server and reclaims a stale socket -/

/-- C2: when the socket file exists and a ping succeeds, `start()` returns
`reusedExisting` performing no filesystem action (no unlink, no spawn, no
error); when the ping fails, the stale socket is unlinked first and a fresh
server is spawned on the same address, and if the spawned server answers the
readiness probe, `start()` succeeds rather than failing permanently. -/
theorem C2_start_reuse_or_reclaim :
    ∀ (env : StartEnv) (sp : String),
      env.hasServerProcess = false → env.socketExists = true →
      (env.pingSucceeds = true → start env sp = (StartOutcome.reusedExisting, [])) ∧
      (env.pingSucceeds = false → env.serverScriptExists = true → env.dataDirExists = true →
        (start env sp).2.head? = some (FsAction.unlink sp) ∧
        FsAction.spawnServer sp ∈ (start env sp).2 ∧
        (env.waitForServerSucceeds = true → (start env sp).1 = StartOutcome.started)) := by
  intro env sp hproc hsock
  constructor
  · intro hping
    simp [start, hproc, hsock, hping]
  · intro hping hscript hdata
    cases hmk : env.memorylaneDirExists <;> cases hwait : env.waitForServerSucceeds <;>
      simp [start, hproc, hsock, hping, hscript, hdata, hmk, hwait]

/-- C2, witness: concrete environments exercising both branches. -/
theorem C2_start_reuse_or_reclaim_witness :
    start ⟨false, true, true, true, true, true, true⟩ "/tmp/m.sock"
        = (StartOutcome.reusedExisting, []) ∧
      (start ⟨false, true, false, true, true, true, true⟩ "/tmp/m.sock").2.head?
        = some (FsAction.unlink "/tmp/m.sock") :=
  ⟨(C2_start_reuse_or_reclaim ⟨false, true, true, true, true, true, true⟩ "/tmp/m.sock"
      rfl rfl).1 rfl,
   ((C2_start_reuse_or_reclaim ⟨false, true, false, true, true, true, true⟩ "/tmp/m.sock"
      rfl rfl).2 rfl rfl rfl).1⟩

/-! ## Claim C3: category strings passed by the extension -/

/-- C3, counterexample: the Memories tree lowercases its root labels and the
insights views pass a literal, producing `patterns`, `insights`,
`learnings`, `context` — none of which belongs to the claimed closed set
{pattern, insight, learning, context-note}. -/
theorem C3_category_outside_closed_set :
    memoryTreeCategoryArg "Patterns" = "patterns" ∧
      showInsightsCategoryArg = "insights" ∧
      ¬ ("patterns" ∈ specCategorySet) ∧
      ¬ ("insights" ∈ specCategorySet) ∧
      extensionCategoryArgs.all (fun c => !(specCategorySet.contains c)) = true := by
  decide

/-- C3 (amended): every category string the extension passes as the
`category` argument of a `get_memories` request belongs to the plural set
{patterns, insights, learnings, context} actually used by the extension —
not to the spec's singular closed set. -/
theorem C3_category_in_plural_set :
    extensionCategoryArgs = ["patterns", "insights", "learnings", "context",
      "insights", "insights"] ∧
      extensionCategoryArgs.all
        (fun c => ["patterns", "insights", "learnings", "context"].contains c) = true := by
  decide

/-! ## Claim C5: addMemory request shape and response handling -/

/-- C5: `addMemory` sends action `add_memory` with category, content, source
and a relevance score — the caller's value, or the default `1.0` (inside
`[0,1]`) when omitted — and on a success status returns the new entry id
from the response, otherwise throws the response's error description. -/
theorem C5_addMemory :
    ∀ (category content source : String) (relevance : ℚ) (resp : Response),
      (addMemoryRequest category content source).action = "add_memory" ∧
      (addMemoryRequest category content source).args
        = [("category", Json.str category), ("content", Json.str content),
           ("source", Json.str source), ("relevance_score", Json.num addMemoryDefaultRelevance)] ∧
      addMemoryDefaultRelevance = 1 ∧
      0 ≤ addMemoryDefaultRelevance ∧ addMemoryDefaultRelevance ≤ 1 ∧
      (addMemoryRequest category content source relevance).args
        = [("category", Json.str category), ("content", Json.str content),
           ("source", Json.str source), ("relevance_score", Json.num relevance)] ∧
      (resp.status = some "success" → addMemoryHandle resp = Except.ok resp.memory_id) ∧
      (resp.status ≠ some "success" → addMemoryHandle resp = Except.error resp.error) := by
  intro category content source relevance resp
  refine ⟨rfl, rfl, rfl, by norm_num [addMemoryDefaultRelevance],
    by norm_num [addMemoryDefaultRelevance], rfl, ?_, ?_⟩
  · intro h
    simp [addMemoryHandle, h]
  · intro h
    simp [addMemoryHandle, h]

/-- C5, witness at concrete inputs (success and error responses). -/
theorem C5_addMemory_witness :
    addMemoryHandle ⟨some "success", none, none, none, none, some "mem-1", none, none⟩
        = Except.ok (some "mem-1") ∧
      addMemoryHandle ⟨some "error", some "InvalidCategory", none, none, none, none, none, none⟩
        = Except.error (some "InvalidCategory") :=
  ⟨(C5_addMemory "patterns" "text" "manual" 1
      ⟨some "success", none, none, none, none, some "mem-1", none, none⟩).2.2.2.2.2.2.1 rfl,
   (C5_addMemory "patterns" "text" "manual" 1
      ⟨some "error", some "InvalidCategory", none, none, none, none, none, none⟩).2.2.2.2.2.2.2
     (by decide)⟩

/-! ## Claim C6: get_context request and exportMarkdown result -/

/-- C6, counterexample: `exportMarkdown` does not surface the included ids —
two success responses differing only in `included_ids` produce the same
return value — and its `get_context` request carries only the `category`
key, never `query` or `token_budget`. -/
theorem C6_exportMarkdown_drops_ids :
    exportMarkdown ⟨some "success", none, none, none, none, none, some "ctx", some ["id1"]⟩
        = exportMarkdown ⟨some "success", none, none, none, none, none, some "ctx", some []⟩ ∧
      (some ["id1"] : Option (List String)) ≠ some [] ∧
      ((exportMarkdownRequest (some "patterns")).args.map Prod.fst) = ["category"] ∧
      ((exportMarkdownRequest none).args.map Prod.fst) = [] := by
  refine ⟨rfl, by decide, rfl, rfl⟩

/-- C6 (amended): the `get_context` request built by `exportMarkdown`
carries only the optional category argument, and on a success status
`exportMarkdown` surfaces only the compressed text (the response's `context`
field) to its caller — the included ids are not returned; a non-success
status throws the response's error description. -/
theorem C6_exportMarkdown_text_only :
    ∀ (category : String) (resp : Response),
      (exportMarkdownRequest (some category)).action = "get_context" ∧
      (exportMarkdownRequest (some category)).args = [("category", Json.str category)] ∧
      (exportMarkdownRequest none).args = [] ∧
      (resp.status = some "success" → exportMarkdown resp = Except.ok resp.context) ∧
      (resp.status ≠ some "success" → exportMarkdown resp = Except.error resp.error) := by
  intro category resp
  refine ⟨rfl, rfl, rfl, ?_, ?_⟩
  · intro h
    simp [exportMarkdown, h]
  · intro h
    simp [exportMarkdown, h]

/-- C6, witness for the amended theorem at concrete inputs. -/
theorem C6_exportMarkdown_text_only_witness :
    exportMarkdown ⟨some "success", none, none, none, none, none, some "# Context", none⟩
        = Except.ok (some "# Context") :=
  (C6_exportMarkdown_text_only "patterns"
    ⟨some "success", none, none, none, none, none, some "# Context", none⟩).2.2.2.1 rfl

/-! ## Claim C8: cumulative interaction metrics -/

/-- One `trackInteraction` step: the interaction counter increases by
exactly one, tokensSaved by 17000 and totalSaved by 51/400 (both
non-negative amounts). -/
theorem trackInteraction_step (m : InteractionMetrics) :
    (trackInteraction m).interactions = m.interactions + 1 ∧
      (trackInteraction m).tokensSaved = m.tokensSaved + 17000 ∧
      (trackInteraction m).totalSaved = m.totalSaved + 51 / 400 := by
  refine ⟨rfl, ?_, ?_⟩ <;> simp [trackInteraction] <;> norm_num

/-- The three cumulative counters never decrease across any number of
tracked interactions. -/
theorem trackInteraction_iterate_le (n : ℕ) (m : InteractionMetrics) :
    m.interactions ≤ (trackInteraction^[n] m).interactions ∧
      m.tokensSaved ≤ (trackInteraction^[n] m).tokensSaved ∧
      m.totalSaved ≤ (trackInteraction^[n] m).totalSaved := by
  induction n with
  | zero => simp
  | succ k ih =>
    obtain ⟨h1, h2, h3⟩ := ih
    obtain ⟨s1, s2, s3⟩ := trackInteraction_step (trackInteraction^[k] m)
    rw [Function.iterate_succ_apply']
    refine ⟨?_, ?_, ?_⟩
    · rw [s1]; linarith
    · rw [s2]; linarith
    · rw [s3]; linarith

/-- C8: every `trackInteraction` call increases the interactions counter by
exactly one and tokensSaved and totalSaved by non-negative amounts, the
three counters never decrease across any sequence of tracked interactions,
and the persisted metrics file written by `saveMetrics` reflects the updated
values. -/
theorem C8_metrics_cumulative :
    ∀ (m : InteractionMetrics) (n : ℕ),
      (trackInteraction m).interactions = m.interactions + 1 ∧
      m.tokensSaved ≤ (trackInteraction m).tokensSaved ∧
      m.totalSaved ≤ (trackInteraction m).totalSaved ∧
      m.interactions ≤ (trackInteraction^[n] m).interactions ∧
      m.tokensSaved ≤ (trackInteraction^[n] m).tokensSaved ∧
      m.totalSaved ≤ (trackInteraction^[n] m).totalSaved ∧
      (saveMetrics (trackInteraction m)).costSavingsTotal = (trackInteraction m).totalSaved ∧
      (saveMetrics (trackInteraction m)).compressionTotalSaved = (trackInteraction m).tokensSaved ∧
      (saveMetrics (trackInteraction m)).interactions = (trackInteraction m).interactions := by
  intro m n
  obtain ⟨s1, s2, s3⟩ := trackInteraction_step m
  obtain ⟨i1, i2, i3⟩ := trackInteraction_iterate_le n m
  refine ⟨s1, by rw [s2]; linarith, by rw [s3]; linarith, i1, i2, i3, rfl, rfl, rfl⟩

/-! ## Claims C7 and C10: lexical similarity -/

/-- A JavaScript split always yields at least one piece. -/
theorem jsSplitWs_ne_nil : ∀ l : List Char, jsSplitWs l ≠ []
  | [] => by simp [jsSplitWs]
  | [c] => by by_cases h : isJsWs c <;> simp [jsSplitWs, h]
  | c :: d :: cs => by
    have ih := jsSplitWs_ne_nil (d :: cs)
    by_cases hc : isJsWs c
    · by_cases hd : isJsWs d <;> simp [jsSplitWs, hc, hd]
      exact ih
    · cases hr : jsSplitWs (d :: cs) with
      | nil => simp [jsSplitWs, hc, hr]
      | cons p ps => simp [jsSplitWs, hc, hr]

/-- A split of a whitespace-headed list starts with an empty piece. -/
theorem jsSplitWs_head_ws : ∀ (cs : List Char) (d : Char), isJsWs d = true →
    ∃ ps, jsSplitWs (d :: cs) = [] :: ps := by
  intro cs
  induction cs with
  | nil => intro d hd; exact ⟨[[]], by simp [jsSplitWs, hd]⟩
  | cons e cs' ih =>
    intro d hd
    by_cases he : isJsWs e
    · obtain ⟨ps, hps⟩ := ih e he
      exact ⟨ps, by simp [jsSplitWs, hd, he]; exact hps⟩
    · exact ⟨jsSplitWs (e :: cs'), by simp [jsSplitWs, hd, he]⟩

/-- A split of a non-whitespace-headed list starts with the piece carrying
that head character. -/
theorem jsSplitWs_head_nonws : ∀ (cs : List Char) (d : Char), isJsWs d = false →
    ∃ p ps, jsSplitWs (d :: cs) = (d :: p) :: ps := by
  intro cs d hd
  cases cs with
  | nil => exact ⟨[], [], by simp [jsSplitWs, hd]⟩
  | cons e cs' =>
    cases hr : jsSplitWs (e :: cs') with
    | nil => exact absurd hr (jsSplitWs_ne_nil _)
    | cons p ps => exact ⟨p, ps, by simp [jsSplitWs, hd, hr]⟩

/-- The spec's word list is exactly the code's split with the empty pieces
removed. -/
theorem specWords_eq_filter : ∀ l : List Char,
    specWords l = (jsSplitWs l).filter (fun p => !p.isEmpty)
  | [] => by simp [specWords, jsSplitWs]
  | [c] => by by_cases h : isJsWs c <;> simp [specWords, jsSplitWs, h]
  | c :: d :: cs => by
    have ih := specWords_eq_filter (d :: cs)
    by_cases hc : isJsWs c
    · by_cases hd : isJsWs d
      · simpa [specWords, jsSplitWs, hc, hd] using ih
      · simpa [specWords, jsSplitWs, hc, hd] using ih
    · by_cases hd : isJsWs d
      · obtain ⟨ps, hps⟩ := jsSplitWs_head_ws cs d hd
        rw [hps] at ih
        simp only [List.filter] at ih
        simp [specWords, jsSplitWs, hc, hd, hps, ih]
      · have hd' : isJsWs d = false := by simpa using hd
        obtain ⟨p, ps, hps⟩ := jsSplitWs_head_nonws cs d hd'
        rw [hps] at ih
        simp only [List.filter_cons, List.isEmpty_cons, Bool.not_false, if_true] at ih
        simp [specWords, jsSplitWs, hc, hd, hps, ih]

/-- The spec's word set is the code's word set with the empty token
removed. -/
theorem specWordSet_eq_erase (t : String) : specWordSet t = (wordSet t).erase "" := by
  unfold specWordSet wordSet
  rw [specWords_eq_filter]
  ext s
  simp only [List.mem_toFinset, List.mem_map, List.mem_filter, Finset.mem_erase]
  constructor
  · rintro ⟨p, ⟨hp, hne⟩, rfl⟩
    refine ⟨?_, p, hp, rfl⟩
    intro h
    have : p = [] := congrArg String.data h
    simp [this] at hne
  · rintro ⟨hne, p, hp, rfl⟩
    refine ⟨p, ⟨hp, ?_⟩, rfl⟩
    simp only [Bool.not_eq_true', List.isEmpty_eq_false]
    intro h
    exact hne (by simp [h])

/-- The code's word set is never empty (a split yields at least one piece). -/
theorem wordSet_nonempty (t : String) : (wordSet t).Nonempty := by
  obtain ⟨p, ps, h⟩ := List.exists_cons_of_ne_nil (jsSplitWs_ne_nil (jsToLower t).data)
  exact ⟨String.mk p, by simp [wordSet, h]⟩

/-- The union word set of two texts has positive size: the division in
`_calculateSimilarity` is never by zero. -/
theorem unionWordSet_card_pos (a b : String) : 0 < (wordSet a ∪ wordSet b).card :=
  Finset.card_pos.mpr ((wordSet_nonempty a).mono Finset.subset_union_left)

/-- C7, counterexample: for `"x"` and `" x"` the code's similarity is `1/2`
(the leading whitespace contributes an empty token to the second word set),
while the Jaccard similarity over the whitespace-separated words of the two
texts is `1`. -/
theorem C7_similarity_counterexample :
    calculateSimilarity "x" " x" ≠ specJaccard "x" " x" ∧
      calculateSimilarity "x" " x" = 1 / 2 ∧ specJaccard "x" " x" = 1 := by
  have h1 : calculateSimilarity "x" " x" = 1 / 2 := by rfl
  have h2 : specJaccard "x" " x" = 1 / 1 := by rfl
  refine ⟨?_, h1, by rw [h2]; norm_num⟩
  rw [h1, h2]
  norm_num

/-- C7 (amended): `_calculateSimilarity` is symmetric and equals `1` on
equal strings, and it equals the Jaccard similarity over the lowercase
whitespace-separated word sets whenever neither input contributes an empty
token (no leading/trailing whitespace and not the empty string); with an
empty token present the code's value differs (see the counterexample). -/
theorem C7_similarity_jaccard :
    ∀ a b : String,
      calculateSimilarity a b = calculateSimilarity b a ∧
      calculateSimilarity a a = 1 ∧
      ("" ∉ wordSet a → "" ∉ wordSet b → calculateSimilarity a b = specJaccard a b) := by
  intro a b
  refine ⟨?_, ?_, ?_⟩
  · unfold calculateSimilarity
    rw [Finset.inter_comm, Finset.union_comm]
  · unfold calculateSimilarity
    rw [Finset.inter_self, Finset.union_self]
    have h := wordSet_nonempty a
    have hc : ((wordSet a).card : ℚ) ≠ 0 := by
      exact_mod_cast Nat.pos_iff_ne_zero.mp (Finset.card_pos.mpr h)
    exact div_self hc
  · intro ha hb
    unfold calculateSimilarity specJaccard
    rw [specWordSet_eq_erase, specWordSet_eq_erase,
      Finset.erase_eq_of_not_mem ha, Finset.erase_eq_of_not_mem hb]

/-- C7, witness for the amended theorem at concrete inputs. -/
theorem C7_similarity_jaccard_witness :
    calculateSimilarity "hello world" "hello there" =
      specJaccard "hello world" "hello there" :=
  (C7_similarity_jaccard "hello world" "hello there").2.2 (by decide) (by decide)

/-- C10: `_calculateSimilarity` is total — splitting always yields at least
one token, so the union set is non-empty and no division by zero occurs —
its value always lies in `[0,1]`, and two empty strings get similarity 1. -/
theorem C10_similarity_total :
    (∀ a b : String,
      0 ≤ calculateSimilarity a b ∧
      calculateSimilarity a b ≤ 1 ∧
      0 < (wordSet a ∪ wordSet b).card) ∧
    calculateSimilarity "" "" = 1 := by
  constructor
  · intro a b
    have hpos := unionWordSet_card_pos a b
    have hposq : (0 : ℚ) < ((wordSet a ∪ wordSet b).card : ℚ) := by exact_mod_cast hpos
    refine ⟨?_, ?_, hpos⟩
    · exact div_nonneg (Nat.cast_nonneg _) (Nat.cast_nonneg _)
    · rw [calculateSimilarity, div_le_one hposq]
      exact_mod_cast Finset.card_le_card
        (Finset.inter_subset_left.trans Finset.subset_union_left)
  · have h1 : (wordSet "" ∩ wordSet "").card = 1 := by rfl
    have h2 : (wordSet "" ∪ wordSet "").card = 1 := by rfl
    rw [calculateSimilarity, h1, h2]
    norm_num

/-! ## Claims C4 and C9: the wire protocol and promise settlement -/

/-- Hex digit characters are never a newline. -/
theorem hexChar_ne_newline (n : Nat) : hexChar n ≠ '\n' := by
  have hall : ∀ a ∈ hexDigits, a ≠ '\n' := by decide
  unfold hexChar List.getD
  cases h : hexDigits.get? n with
  | none => simp
  | some a => simpa using hall a (List.get?_mem h)

/-- Decimal digit strings contain no newline. -/
theorem natReprAux_ne_newline : ∀ (fuel n : Nat), ∀ c ∈ natReprAux fuel n, c ≠ '\n' := by
  intro fuel
  induction fuel with
  | zero => intro n c hc; simp [natReprAux] at hc
  | succ f ih =>
    intro n c hc
    by_cases hn : n = 0
    · simp [natReprAux, hn] at hc
    · rw [natReprAux, if_neg hn] at hc
      rcases List.mem_append.mp hc with h | h
      · exact ih _ c h
      · rw [List.mem_singleton] at h
        exact h ▸ hexChar_ne_newline _

theorem natRepr_ne_newline (n : Nat) : ∀ c ∈ natRepr n, c ≠ '\n' := by
  intro c hc
  unfold natRepr at hc
  by_cases hn : n = 0
  · rw [if_pos hn, List.mem_singleton] at hc
    simp [hc]
  · rw [if_neg hn] at hc
    exact natReprAux_ne_newline n n c hc

/-- Rendered JSON numbers contain no newline. -/
theorem jsonNumChars_ne_newline (q : ℚ) : ∀ c ∈ jsonNumChars q, c ≠ '\n' := by
  intro c hc
  unfold jsonNumChars at hc
  rcases List.mem_append.mp hc with h | h
  · rcases List.mem_append.mp h with h' | h'
    · split at h' <;> simp at h'
      simp [h']
    · exact natRepr_ne_newline _ c h'
  · split at h
    · simp at h
    · rw [List.mem_cons] at h
      rcases h with h | h
      · simp [h]
      · exact natRepr_ne_newline _ c h

/-- Escaped string characters are never a raw newline. -/
theorem escChar_ne_newline (c : Char) : ∀ x ∈ escChar c, x ≠ '\n' := by
  intro x hx
  unfold escChar at hx
  split at hx
  · rcases List.mem_cons.mp hx with h | h <;> simp_all
  · split at hx
    · rcases List.mem_cons.mp hx with h | h <;> simp_all
    · split at hx
      · rcases List.mem_cons.mp hx with h | h <;> simp_all
      · split at hx
        · rcases List.mem_cons.mp hx with h | h <;> simp_all
        · split at hx
          · rcases List.mem_cons.mp hx with h | h <;> simp_all
          · split at hx
            · rcases List.mem_cons.mp hx with h | h <;> simp_all
            · split at hx
              · rcases List.mem_cons.mp hx with h | h <;> simp_all
              · split at hx
                · simp only [List.mem_cons, List.mem_singleton] at hx
                  rcases hx with h | h | h | h | h | h
                  · simp [h]
                  · simp [h]
                  · simp [h]
                  · simp [h]
                  · exact h ▸ hexChar_ne_newline _
                  · rcases h with h | h
                    · exact h ▸ hexChar_ne_newline _
                    · simp at h
                · rename_i h1 h2 h3 h4 h5 h6 h7 h8
                  rw [List.mem_singleton] at hx
                  subst hx
                  intro hxe
                  subst hxe
                  exact h3 rfl

theorem escFold_ne_newline :
    ∀ (l : List Char), ∀ c ∈ l.foldr (fun c acc => escChar c ++ acc) ['"'], c ≠ '\n' := by
  intro l
  induction l with
  | nil => intro c hc; rw [List.foldr_nil, List.mem_singleton] at hc; simp [hc]
  | cons x xs ih =>
    intro c hc
    rw [List.foldr_cons] at hc
    rcases List.mem_append.mp hc with h | h
    · exact escChar_ne_newline x c h
    · exact ih c h

/-- JSON-encoded strings contain no newline. -/
theorem encodeStr_ne_newline (s : String) : ∀ c ∈ encodeStr s, c ≠ '\n' := by
  intro c hc
  unfold encodeStr at hc
  rcases List.mem_cons.mp hc with h | h
  · simp [h]
  · exact escFold_ne_newline s.data c h

theorem encodeVal_ne_newline (v : Json) : ∀ c ∈ encodeVal v, c ≠ '\n' := by
  intro c hc
  cases v with
  | str s => exact encodeStr_ne_newline s c hc
  | num q => exact jsonNumChars_ne_newline q c hc

theorem jsonMember_ne_newline (k : String) (v : Json) : ∀ c ∈ jsonMember k v, c ≠ '\n' := by
  intro c hc
  unfold jsonMember at hc
  rcases List.mem_append.mp hc with h | h
  · exact encodeStr_ne_newline k c h
  · rcases List.mem_cons.mp h with h' | h'
    · simp [h']
    · exact encodeVal_ne_newline v c h'

/-- The serialized request line contains no newline: the trailing `'\n'`
appended by `sendRequest` is the only one on the wire. -/
theorem encodeRequest_ne_newline (r : Request) : ∀ c ∈ encodeRequest r, c ≠ '\n' := by
  intro c hc
  unfold encodeRequest at hc
  rcases List.mem_cons.mp hc with h | h
  · simp [h]
  · rcases List.mem_append.mp h with h' | h'
    · exact jsonMember_ne_newline _ _ c h'
    · rcases List.mem_append.mp h' with h'' | h''
      · rw [List.mem_flatten] at h''
        obtain ⟨part, hpart, hcpart⟩ := h''
        rw [List.mem_map] at hpart
        obtain ⟨f, _, rfl⟩ := hpart
        rcases List.mem_cons.mp hcpart with h3 | h3
        · simp [h3]
        · exact jsonMember_ne_newline _ _ c h3
      · rw [List.mem_singleton] at h''
        simp [h'']

/-- Splitting an `includes` test across a string append. -/
theorem jsIncludes_append (a b : String) (c : Char) :
    jsIncludes (a ++ b) c = (jsIncludes a c || jsIncludes b c) := by
  simp [jsIncludes, String.data_append, List.any_append]

/-- Data chunks that contain no newline only accumulate in the buffer: the
promise is not settled and the response is not parsed. -/
theorem runEvents_data_accum :
    ∀ (cs : List String) (st : ReqState),
      st.settled = false → st.outcome = none → st.settleOps = 0 → st.destroyed = false →
      jsIncludes st.buf '\n' = false →
      (∀ x ∈ cs, jsIncludes x '\n' = false) →
      (cs.map SockEv.data).foldl stepEv st
        = { st with buf := cs.foldl (fun a x => a ++ x) st.buf } := by
  intro cs
  induction cs with
  | nil => intro st _ _ _ _ _ _; rfl
  | cons x xs ih =>
    intro st hs ho hops hd hbuf hall
    have hx : jsIncludes x '\n' = false := hall x (List.mem_cons_self x xs)
    have hbx : jsIncludes (st.buf ++ x) '\n' = false := by
      rw [jsIncludes_append, hbuf, hx]
      rfl
    simp only [List.map_cons, List.foldl_cons]
    have hstep : stepEv st (SockEv.data x) = { st with buf := st.buf ++ x } := by
      simp only [stepEv, onData]
      rw [hbx]
      simp
    rw [hstep]
    exact ih { st with buf := st.buf ++ x } hs ho hops hd hbx
      (fun y hy => hall y (List.mem_cons_of_mem x hy))

/-- A data event on an unsettled connection whose buffer completes a line
settles the promise with the trimmed accumulated buffer. -/
theorem onData_settles (st : ReqState) (c : String) (hs : st.settled = false)
    (hc : jsIncludes (st.buf ++ c) '\n' = true) :
    (onData st c).outcome = some (Settle.response (jsTrim (st.buf ++ c))) := by
  unfold onData
  rw [hc, hs]
  simp

/-- Settlement on the first chunk that completes a line: the accumulated
buffer is trimmed and handed to `JSON.parse`, resolving the promise. -/
theorem runEvents_settles_on_newline :
    ∀ (cs : List String) (c : String),
      (∀ x ∈ cs, jsIncludes x '\n' = false) →
      jsIncludes c '\n' = true →
      (runEvents ((cs ++ [c]).map SockEv.data)).outcome
        = some (Settle.response (jsTrim ((cs.foldl (fun a x => a ++ x) "") ++ c))) ∧
      (runEvents (cs.map SockEv.data)).settled = false := by
  intro cs c hall hc
  have hrun := runEvents_data_accum cs initReqState rfl rfl rfl rfl (by rfl) hall
  have hst : runEvents (cs.map SockEv.data)
      = ⟨false, cs.foldl (fun a x => a ++ x) "", none, 0, false⟩ := by
    rw [runEvents, hrun]
    rfl
  constructor
  · unfold runEvents
    rw [List.map_append, List.foldl_append, ← runEvents, hst]
    simp only [List.map_cons, List.map_nil, List.foldl_cons, List.foldl_nil, stepEv]
    exact onData_settles ⟨false, cs.foldl (fun a x => a ++ x) "", none, 0, false⟩ c rfl
      (by rw [show (⟨false, cs.foldl (fun a x => a ++ x) "", none, 0, false⟩ : ReqState).buf
            = cs.foldl (fun a x => a ++ x) "" from rfl, jsIncludes_append, hc]; simp)
  · rw [hst]

/-- Each handler settles the promise at most once: the `settled` flag and
the number of resolve/reject calls agree. -/
theorem stepEv_settleOps (st : ReqState) (e : SockEv)
    (h : st.settleOps = if st.settled = true then 1 else 0) :
    (stepEv st e).settleOps = if (stepEv st e).settled = true then 1 else 0 := by
  cases e with
  | data ch =>
    simp only [stepEv, onData]
    split
    · split
      · simp_all
      · simp_all
    · simp_all
  | err m =>
    simp only [stepEv, onErr]
    split
    · simp_all
    · simp_all

theorem runEvents_settleOps :
    ∀ (evs : List SockEv) (st : ReqState),
      st.settleOps = (if st.settled = true then 1 else 0) →
      (evs.foldl stepEv st).settleOps
        = (if (evs.foldl stepEv st).settled = true then 1 else 0) := by
  intro evs
  induction evs with
  | nil => intro st h; exact h
  | cons e es ih =>
    intro st h
    simp only [List.foldl_cons]
    exact ih (stepEv st e) (stepEv_settleOps st e h)

/-- After the timeout handler runs, the promise has been settled exactly
once, whatever the event trace did. -/
theorem runWithTimeout_settleOps_eq_one (evs : List SockEv) :
    (runWithTimeout evs).settleOps = 1 := by
  have h : (runEvents evs).settleOps = if (runEvents evs).settled = true then 1 else 0 :=
    runEvents_settleOps evs initReqState (by rfl)
  unfold runWithTimeout onTimeout
  split
  · rename_i hs
    rw [h, if_pos hs]
  · rename_i hs
    have h0 : (runEvents evs).settleOps = 0 := by
      rw [h, if_neg hs]
    simp [h0]

/-- A trace of newline-free data chunks and no socket error leaves the
promise pending; the timeout then destroys the connection and rejects. -/
theorem runWithTimeout_timeout :
    ∀ evs : List SockEv,
      (∀ e ∈ evs, ∃ ch, e = SockEv.data ch ∧ jsIncludes ch '\n' = false) →
      (runWithTimeout evs).outcome = some Settle.timeout ∧
      (runWithTimeout evs).destroyed = true := by
  have key : ∀ (evs : List SockEv) (st : ReqState),
      st.settled = false → st.outcome = none →
      jsIncludes st.buf '\n' = false →
      (∀ e ∈ evs, ∃ ch, e = SockEv.data ch ∧ jsIncludes ch '\n' = false) →
      (evs.foldl stepEv st).settled = false ∧ (evs.foldl stepEv st).outcome = none ∧
        (evs.foldl stepEv st).destroyed = st.destroyed := by
    intro evs
    induction evs with
    | nil => intro st hs ho hb _; exact ⟨hs, ho, rfl⟩
    | cons e es ih =>
      intro st hs ho hb hall
      obtain ⟨ch, rfl, hch⟩ := hall e (List.mem_cons_self e es)
      have hbc : jsIncludes (st.buf ++ ch) '\n' = false := by
        rw [jsIncludes_append, hb, hch]
        rfl
      simp only [List.foldl_cons]
      have hstep : stepEv st (SockEv.data ch) = { st with buf := st.buf ++ ch } := by
        simp only [stepEv, onData]
        rw [hbc]
        simp
      rw [hstep]
      exact ih _ hs ho hbc (fun y hy => hall y (List.mem_cons_of_mem _ hy))
  intro evs hall
  obtain ⟨hs, ho, _⟩ := key evs initReqState rfl rfl (by rfl) hall
  have hs' : (runEvents evs).settled = false := hs
  have ho' : (runEvents evs).outcome = none := ho
  unfold runWithTimeout onTimeout
  rw [hs']
  simp

/-- C4: every `sendRequest` call writes exactly one newline-terminated JSON
message — the serialized flat object whose first member is the action name,
followed by the argument mapping, with a single `'\n'`, at the end — the
accumulated response is parsed only once a newline has been received (no
settlement before, settlement with the trimmed accumulated buffer at the
first line-completing chunk), and every response is interpreted by its
status field: a `success` status yields the payload, any other status
yields an error built from the response's error description, in each of the
four response-consuming callers. -/
theorem C4_line_protocol :
    ∀ (r : Request) (cs : List String) (c : String) (resp : Response),
      (wireData r).data = encodeRequest r ++ ['\n'] ∧
      (wireData r).data.count '\n' = 1 ∧
      (wireData r).data.getLast? = some '\n' ∧
      encodeRequest r = '{' :: (jsonMember "action" (Json.str r.action) ++
        (((r.args.map fun f => ',' :: jsonMember f.1 f.2).flatten) ++ ['}'])) ∧
      ((∀ x ∈ cs, jsIncludes x '\n' = false) →
        (runEvents (cs.map SockEv.data)).settled = false ∧
        (jsIncludes c '\n' = true →
          (runEvents ((cs ++ [c]).map SockEv.data)).outcome
            = some (Settle.response (jsTrim ((cs.foldl (fun a x => a ++ x) "") ++ c))))) ∧
      (resp.status = some "success" →
        getStats resp = Except.ok (resp.memory_stats, resp.server_stats) ∧
        getMemories resp = Except.ok resp.memories ∧
        addMemoryHandle resp = Except.ok resp.memory_id ∧
        exportMarkdown resp = Except.ok resp.context) ∧
      (resp.status ≠ some "success" →
        getStats resp = Except.error resp.error ∧
        getMemories resp = Except.error resp.error ∧
        addMemoryHandle resp = Except.error resp.error ∧
        exportMarkdown resp = Except.error resp.error) := by
  intro r cs c resp
  have hdata : (wireData r).data = encodeRequest r ++ ['\n'] := by
    simp [wireData, String.data_append]
  refine ⟨hdata, ?_, ?_, rfl, ?_, ?_, ?_⟩
  · rw [hdata, List.count_append]
    have h0 : (encodeRequest r).count '\n' = 0 :=
      List.count_eq_zero.mpr (fun h => encodeRequest_ne_newline r '\n' h rfl)
    simp [h0, List.count_singleton]
  · rw [hdata]
    exact List.getLast?_concat _
  · intro hall
    have hrun := runEvents_data_accum cs initReqState rfl rfl rfl rfl (by rfl) hall
    refine ⟨?_, fun hc => (runEvents_settles_on_newline cs c hall hc).1⟩
    rw [runEvents, hrun]
    rfl
  · intro h
    exact ⟨by simp [getStats, h], by simp [getMemories, h],
      by simp [addMemoryHandle, h], by simp [exportMarkdown, h]⟩
  · intro h
    exact ⟨by simp [getStats, h], by simp [getMemories, h],
      by simp [addMemoryHandle, h], by simp [exportMarkdown, h]⟩

/-- C4, witness at a concrete request, chunk trace, and response. -/
theorem C4_line_protocol_witness :
    (wireData pingRequest).data.count '\n' = 1 ∧
      (runEvents ((([] : List String) ++ ["ok\n"]).map SockEv.data)).outcome
        = some (Settle.response (jsTrim ((([] : List String).foldl
            (fun a x => a ++ x) "") ++ "ok\n"))) ∧
      getStats ⟨some "success", none, none, none, none, none, none, none⟩
        = Except.ok (none, none) :=
  have h := C4_line_protocol pingRequest [] "ok\n"
    ⟨some "success", none, none, none, none, none, none, none⟩
  ⟨h.2.1,
   ((h.2.2.2.2.1 (by simp)).2 (by decide)),
   (h.2.2.2.2.2.1 rfl).1⟩

/-- C9: across any socket-event trace followed by the timeout, the promise
is settled exactly once (the `settled` flag makes a second resolution or
rejection unreachable — during the events alone it settles at most once),
and if neither a complete response line nor a socket error arrives, the
request is rejected with the timeout — whose default is 10000 ms — and the
connection destroyed. -/
theorem C9_promise_settled_once :
    ∀ evs : List SockEv,
      (runWithTimeout evs).settleOps = 1 ∧
      (runEvents evs).settleOps ≤ 1 ∧
      ((∀ e ∈ evs, ∃ ch, e = SockEv.data ch ∧ jsIncludes ch '\n' = false) →
        (runWithTimeout evs).outcome = some Settle.timeout ∧
        (runWithTimeout evs).destroyed = true) ∧
      sendRequestDefaultTimeoutMs = 10000 := by
  intro evs
  refine ⟨runWithTimeout_settleOps_eq_one evs, ?_, runWithTimeout_timeout evs, rfl⟩
  have h : (runEvents evs).settleOps = if (runEvents evs).settled = true then 1 else 0 :=
    runEvents_settleOps evs initReqState (by rfl)
  rw [h]
  split <;> omega

/-- C9, witness: the empty trace times out, destroying the connection, and
settles exactly once. -/
theorem C9_promise_settled_once_witness :
    (runWithTimeout []).settleOps = 1 ∧
      (runWithTimeout []).outcome = some Settle.timeout ∧
      (runWithTimeout []).destroyed = true :=
  have h := C9_promise_settled_once []
  ⟨h.1, (h.2.2.1 (by simp)).1, (h.2.2.1 (by simp)).2⟩

end MemoryLane
